import Mathlib

/-!
Verification development for the `imglizza` image-optimization script
(`src/optimizar_imagenes.py`).  The script's `GitImageOptimizer` class is
embedded shallowly: pure data (the size catalog, artifact paths, the resize
computation) becomes Lean functions; the filesystem and the git subprocess
are abstracted into explicit oracles (`Env`, `GitEnv`) recording which
external calls fail, and each method returns the full record of its
observable effects (files written, accumulator contents, commands issued,
working directory).
-/

namespace ImgLizza

/-- The two output encodings each size profile is saved in
(`img_resized.save(..., 'WEBP', ...)` then `img_resized.save(..., 'JPEG', ...)`). -/
inductive Encoding
  | webp
  | jpeg
deriving DecidableEq, Repr

/-- The filename suffix each encoding is written with
(`f"{filename}.webp"`, `f"{filename}.jpg"`). -/
def Encoding.suffix : Encoding → String
  | .webp => ".webp"
  | .jpeg => ".jpg"

/-- Pixel modes of a decoded PIL image that the script's convert branch
distinguishes (`img.mode in ('RGBA', 'LA', 'P')`), plus other representative
modes a PNG decode can yield. -/
inductive Mode
  | RGB
  | RGBA
  | LA
  | P
  | L
  | CMYK
deriving DecidableEq, Repr

/-- A decoded image: pixel mode and dimensions, the observable attributes the
script's transformations touch. -/
structure Img where
  mode : Mode
  width : Nat
  height : Nat
deriving DecidableEq, Repr

/-- Python's `img.convert('RGB')`: re-encodes the pixels into opaque three-channel RGB,
keeping the dimensions. -/
def Img.convertRGB (img : Img) : Img :=
  { img with mode := Mode.RGB }

/-- One entry of `self.sizes_config`: bounding box and save quality. -/
structure SizeConfig where
  maxW : Nat
  maxH : Nat
  quality : Nat
deriving DecidableEq, Repr

/-- The table `self.sizes_config` from `GitImageOptimizer.__init__`, in the dict's
(insertion-ordered) iteration order. -/
def sizes_config : List (String × SizeConfig) :=
  [("thumb", ⟨300, 300, 70⟩), ("medium", ⟨800, 800, 80⟩), ("large", ⟨1200, 1200, 85⟩)]

/-- Absolute difference `|a - b|` on naturals. -/
def natAbsDiff (a b : Nat) : Nat := max a b - min a b

/-- PIL's `round_aspect(number, key)` for the branch `x / y >= aspect` of
`Image.thumbnail`: `number = th * (w / h)` and `key n = |w / h - n / th|`.
Modelled with exact rational arithmetic: the floor is `th * w / h`, the ceil
is `(th * w + h - 1) / h`, and the key comparison `|w / h - fl / th| ≤
|w / h - ce / th|` is cross-multiplied by the common denominator `h * th`
into `|w * th - fl * h| ≤ |w * th - ce * h|`. -/
def round_aspect1 (w h th : Nat) : Nat :=
  let fl := th * w / h
  let ce := (th * w + h - 1) / h
  if natAbsDiff (w * th) (fl * h) ≤ natAbsDiff (w * th) (ce * h) then fl else ce

/-- PIL's `round_aspect(number, key)` for the branch `x / y < aspect` of
`Image.thumbnail`: `number = tw / (w / h)` and
`key n = 0 if n = 0 else |w / h - tw / n|`.  Modelled with exact rational
arithmetic: the floor is `tw * h / w`, the ceil is `(tw * h + w - 1) / w`; a
zero floor has key 0 and is chosen; otherwise the key comparison is
cross-multiplied by `h * fl * ce` into
`|w * fl - tw * h| * ce ≤ |w * ce - tw * h| * fl`. -/
def round_aspect2 (w h tw : Nat) : Nat :=
  let fl := tw * h / w
  let ce := (tw * h + w - 1) / w
  if fl = 0 then fl
  else if natAbsDiff (w * fl) (tw * h) * ce ≤ natAbsDiff (w * ce) (tw * h) * fl then fl
  else ce

/-- The size computation of PIL `Image.thumbnail` (the external ImageCodec
resize capability invoked by `img_resized.thumbnail(config['size'], ...)`),
with exact rational arithmetic in place of IEEE floats: an image of `w × h`
pixels fitted into the box `tw × th`.  If the image already fits, it is left
untouched; otherwise the dimension that the aspect ratio determines is
rounded to the nearest integer (floor or ceil, whichever preserves the aspect
better) and clamped to at least 1. -/
def thumbnailSize (w h tw th : Nat) : Nat × Nat :=
  if tw ≥ w ∧ th ≥ h then (w, h)
  else if tw * h ≥ w * th then (max (round_aspect1 w h th) 1, th)
  else (tw, max (round_aspect2 w h tw) 1)

/-- Python's `img_resized.thumbnail(config['size'], Image.Resampling.LANCZOS)`:
in-place shrink-to-fit, keeping the pixel mode. -/
def thumbnailImg (img : Img) (tw th : Nat) : Img :=
  let s := thumbnailSize img.width img.height tw th
  { img with width := s.1, height := s.2 }

/-- Python's `os.path.join` on two components (separator abstracted as `/`). -/
def pathJoin (a b : String) : String := a ++ "/" ++ b

/-- The mutable state of a `GitImageOptimizer` instance: `self.repo_path` and
the `self.processed_files` accumulator. -/
structure Optimizer where
  repo_path : String
  processed_files : List String
deriving DecidableEq, Repr

/-- The field `self.original_folder = os.path.join(repo_path, "originales", "Anillos")`. -/
def original_folder (o : Optimizer) : String :=
  pathJoin (pathJoin o.repo_path "originales") "Anillos"

/-- The field `self.optimized_folder = os.path.join(repo_path, "optimizadas", "Anillos")`. -/
def optimized_folder (o : Optimizer) : String :=
  pathJoin (pathJoin o.repo_path "optimizadas") "Anillos"

/-- The deterministic output path of one artifact:
`os.path.join(self.optimized_folder, size_name, f"{filename}.<ext>")`. -/
def artifact_path (o : Optimizer) (size_name stem : String) (e : Encoding) : String :=
  pathJoin (pathJoin (optimized_folder o) size_name) (stem ++ e.suffix)

/-- One source image as `optimize_image` sees it: the stem
(`Path(image_path).stem`) and the decode result (`none` models
`Image.open`/decode raising). -/
structure SourceImage where
  stem : String
  decoded : Option Img
deriving DecidableEq, Repr

/-- The filesystem/codec oracle: whether the `img_resized.save(...)` call for
a given (source stem, size name, encoding) raises an encode or write error. -/
structure Env where
  save_fails : String → String → Encoding → Bool

/-- One successful `img_resized.save(path, ...)`: the path written and the
image (mode, dimensions) and quality it was encoded with. -/
structure WriteEvent where
  path : String
  img : Img
  quality : Nat
deriving DecidableEq, Repr

/-- The observable outcome of one `optimize_image` call: the returned boolean,
the `self.processed_files` accumulator after the call, and the files written
to disk during the call, in order. -/
structure GenResult where
  ok : Bool
  processed_files : List String
  writes : List WriteEvent
deriving DecidableEq, Repr

/-- The write `img_resized.save(path, ...)` performs when it does not raise:
the artifact path for the encoding, the resized image and the profile's
quality. -/
def save_event (o : Optimizer) (stem : String) (img_resized : Img) (size_name : String)
    (quality : Nat) (e : Encoding) : WriteEvent :=
  ⟨artifact_path o size_name stem e, img_resized, quality⟩

/-- The `for size_name, config in self.sizes_config.items()` loop body of
`optimize_image`, threading the accumulator and the write log.  For each
profile: resize a copy, save WebP, save JPEG, then
`self.processed_files.extend([webp_path, jpg_path])`.  A raising save aborts
the loop (the surrounding `try` returns `False`), leaving the accumulator and
the files already written as they are. -/
def optimize_loop (o : Optimizer) (env : Env) (stem : String) (img : Img) :
    List (String × SizeConfig) → List String → List WriteEvent → GenResult
  | [], processed, writes => ⟨true, processed, writes⟩
  | (size_name, config) :: rest, processed, writes =>
    let img_resized := thumbnailImg img config.maxW config.maxH
    if env.save_fails stem size_name Encoding.webp then
      ⟨false, processed, writes⟩
    else if env.save_fails stem size_name Encoding.jpeg then
      ⟨false, processed,
        writes ++ [save_event o stem img_resized size_name config.quality Encoding.webp]⟩
    else
      optimize_loop o env stem img rest
        (processed ++ [artifact_path o size_name stem Encoding.webp,
                       artifact_path o size_name stem Encoding.jpeg])
        (writes ++ [save_event o stem img_resized size_name config.quality Encoding.webp,
                    save_event o stem img_resized size_name config.quality Encoding.jpeg])

/-- The convert branch of `optimize_image`:
`if img.mode in ('RGBA', 'LA', 'P'): img = img.convert('RGB')`. -/
def convert_branch (img : Img) : Img :=
  if img.mode = Mode.RGBA ∨ img.mode = Mode.LA ∨ img.mode = Mode.P then
    img.convertRGB
  else img

/-- The method `GitImageOptimizer.optimize_image`: decode, normalize the mode, then run
the per-profile save loop; any exception (decode failure or a raising save)
is caught and yields `False`. -/
def optimize_image (o : Optimizer) (env : Env) (src : SourceImage) : GenResult :=
  match src.decoded with
  | none => ⟨false, o.processed_files, []⟩
  | some img =>
    optimize_loop o env src.stem (convert_branch img) sizes_config o.processed_files []

/-- The observable outcome of `process_all_images`: the returned boolean,
`success_count`, the accumulator after the batch and all files written. -/
structure BatchResult where
  ok : Bool
  success_count : Nat
  processed_files : List String
  writes : List WriteEvent
deriving DecidableEq, Repr

/-- The `for image_path in image_files` loop of `process_all_images`:
every source is passed to `optimize_image`; a `True` return increments
`success_count`. -/
def process_loop (env : Env) :
    List SourceImage → Optimizer → Nat → List WriteEvent →
      Nat × Optimizer × List WriteEvent
  | [], o, n, ws => (n, o, ws)
  | src :: rest, o, n, ws =>
    let r := optimize_image o env src
    process_loop env rest { o with processed_files := r.processed_files }
      (if r.ok then n + 1 else n) (ws ++ r.writes)

/-- The method `GitImageOptimizer.process_all_images`: glob the sources (given here as
the discovered list), return `False` on empty discovery, otherwise process
every source and return `success_count > 0`. -/
def process_all_images (o : Optimizer) (env : Env) (sources : List SourceImage) :
    BatchResult :=
  if sources = [] then ⟨false, 0, o.processed_files, []⟩
  else
    ⟨decide (0 < (process_loop env sources o 0 []).1),
     (process_loop env sources o 0 []).1,
     (process_loop env sources o 0 []).2.1.processed_files,
     (process_loop env sources o 0 []).2.2⟩

/-- The git subprocess oracle: which of the four `subprocess.run` calls of
`git_commit_and_push` fail (`check=True` raising `CalledProcessError` for the
first three; a nonzero returncode for `git push`). -/
structure GitEnv where
  add_optimizadas_fails : Bool
  add_gitignore_fails : Bool
  commit_fails : Bool
  push_succeeds : Bool
deriving DecidableEq, Repr

/-- The message `commit_message = f"Optimizar imágenes - {len(self.processed_files)} archivos procesados"`. -/
def commit_message (o : Optimizer) : String :=
  "Optimizar imágenes - " ++ toString o.processed_files.length ++ " archivos procesados"

/-- The observable outcome of `git_commit_and_push`: the returned boolean, the
process-global working directory after the call, the `subprocess.run` argument
vectors issued in order, and the optimizer state after the call. -/
structure PushResult where
  ok : Bool
  cwd : String
  commands : List (List String)
  optimizer : Optimizer
deriving DecidableEq, Repr

/-- The method `GitImageOptimizer.git_commit_and_push`: `os.chdir(self.repo_path)`, then
`git add optimizadas/`, `git add .gitignore`, `git commit -m <message>`
(each aborting with `False` if it raises), then `git push`, whose returncode
decides the result.  No path restores the previous working directory. -/
def git_commit_and_push (o : Optimizer) (cwd0 : String) (genv : GitEnv) : PushResult :=
  let _ := cwd0
  let cwd := o.repo_path
  if genv.add_optimizadas_fails then
    ⟨false, cwd, [["git", "add", "optimizadas/"]], o⟩
  else if genv.add_gitignore_fails then
    ⟨false, cwd, [["git", "add", "optimizadas/"], ["git", "add", ".gitignore"]], o⟩
  else if genv.commit_fails then
    ⟨false, cwd,
      [["git", "add", "optimizadas/"], ["git", "add", ".gitignore"],
       ["git", "commit", "-m", commit_message o]], o⟩
  else
    ⟨genv.push_succeeds, cwd,
      [["git", "add", "optimizadas/"], ["git", "add", ".gitignore"],
       ["git", "commit", "-m", commit_message o], ["git", "push"]], o⟩

/-- The paths the publish step hands to `git add`: the arguments of the
`git add` commands among the issued subprocess calls. -/
def add_args (cmds : List (List String)) : List String :=
  cmds.filterMap fun c =>
    match c with
    | ["git", "add", p] => some p
    | _ => none

/-- The observable outcome of `run_full_optimization`: the batch result,
whether `git_commit_and_push` was invoked, and its outcome when it was. -/
structure RunResult where
  batch : BatchResult
  publish_invoked : Bool
  publish : Option PushResult
deriving DecidableEq, Repr

/-- The method `GitImageOptimizer.run_full_optimization`, from the batch step on
(`setup_git_structure` and `move_existing_images` only prepare directories
and relocate files; the discovered sources are given as a list):
`if not self.process_all_images(): return`, else `self.git_commit_and_push()`. -/
def run_full_optimization (o : Optimizer) (cwd0 : String) (env : Env)
    (genv : GitEnv) (sources : List SourceImage) : RunResult :=
  if (process_all_images o env sources).ok then
    ⟨process_all_images o env sources, true,
     some (git_commit_and_push
       { o with processed_files := (process_all_images o env sources).processed_files }
       cwd0 genv)⟩
  else ⟨process_all_images o env sources, false, none⟩

/-- The entry point `main`: validate the hardcoded repository path, build the optimizer with
an empty accumulator and run `run_full_optimization`.  The returned value is
the process exit status: every branch of the Python `main` falls off the end
of the function (plain `return`, never `sys.exit`), so the interpreter exits
with status 0 on every path. -/
def main (repo_exists git_exists : Bool) (repo_path cwd0 : String) (env : Env)
    (genv : GitEnv) (sources : List SourceImage) : Nat :=
  if repo_exists = false then 0
  else if git_exists = false then 0
  else
    let o : Optimizer := { repo_path := repo_path, processed_files := [] }
    let _ := run_full_optimization o cwd0 env genv sources
    0

/-! ## Arithmetic facts about the resize computation -/

/-- The exact rational ceiling `⌈q / d⌉ = (q + d - 1) / d` is at most `m`
whenever `q ≤ m * d`. -/
lemma ceil_div_le (q d m : Nat) (hd : 0 < d) (h : q ≤ m * d) : (q + d - 1) / d ≤ m := by
  have h1 : q + d - 1 < (m + 1) * d := by
    have h2 : (m + 1) * d = m * d + d := by ring
    rw [h2]
    revert h
    generalize m * d = k
    omega
  have h3 := (Nat.div_lt_iff_lt_mul hd).mpr h1
  omega

/-- The rounding `round_aspect1` never exceeds a bound that dominates the exact ratio:
if `th * w ≤ m * h` then the rounded width is at most `m`. -/
lemma round_aspect1_le (w h th m : Nat) (hh : 0 < h) (hle : th * w ≤ m * h) :
    round_aspect1 w h th ≤ m := by
  have hce : (th * w + h - 1) / h ≤ m := ceil_div_le _ _ _ hh hle
  have hfl : th * w / h ≤ m :=
    le_trans (Nat.div_le_div_right (by omega)) hce
  simp only [round_aspect1]
  split <;> assumption

/-- The rounding `round_aspect2` never exceeds a bound that dominates the exact ratio:
if `tw * h ≤ m * w` then the rounded height is at most `m`. -/
lemma round_aspect2_le (w h tw m : Nat) (hw : 0 < w) (hle : tw * h ≤ m * w) :
    round_aspect2 w h tw ≤ m := by
  have hce : (tw * h + w - 1) / w ≤ m := ceil_div_le _ _ _ hw hle
  have hfl : tw * h / w ≤ m :=
    le_trans (Nat.div_le_div_right (by omega)) hce
  simp only [round_aspect2]
  split
  · assumption
  · split <;> assumption

/-- The size `Image.thumbnail` computes is bounded by the box and by the
source, and a source that already fits is left untouched. -/
theorem thumbnail_size_bounds (w h tw th : Nat) (hw : 1 ≤ w) (hh : 1 ≤ h)
    (htw : 1 ≤ tw) (hth : 1 ≤ th) :
    (thumbnailSize w h tw th).1 ≤ tw ∧ (thumbnailSize w h tw th).2 ≤ th ∧
    (thumbnailSize w h tw th).1 ≤ w ∧ (thumbnailSize w h tw th).2 ≤ h ∧
    (w ≤ tw → h ≤ th → thumbnailSize w h tw th = (w, h)) := by
  by_cases hfit : tw ≥ w ∧ th ≥ h
  · refine ⟨?_, ?_, ?_, ?_, ?_⟩ <;> simp [thumbnailSize, hfit]
  · by_cases hbr : tw * h ≥ w * th
    · have hth_le_h : th ≤ h := by
        rcases not_and_or.mp hfit with hc | hc
        · push_neg at hc
          have h1 : w * th < w * h := by nlinarith
          exact le_of_lt (lt_of_mul_lt_mul_left h1 (Nat.zero_le w))
        · omega
      have hr_tw : round_aspect1 w h th ≤ tw :=
        round_aspect1_le w h th tw hh (by nlinarith)
      have hr_w : round_aspect1 w h th ≤ w :=
        round_aspect1_le w h th w hh (by nlinarith)
      refine ⟨?_, ?_, ?_, ?_, ?_⟩ <;> simp [thumbnailSize, hfit, hbr]
      · exact ⟨hr_tw, htw⟩
      · exact ⟨hr_w, hw⟩
      · exact hth_le_h
      · intro h1 h2
        exact absurd ⟨h1, h2⟩ hfit
    · push_neg at hbr
      have htw_le_w : tw ≤ w := by
        by_contra hc
        push_neg at hc
        have h1 : ¬ th ≥ h := fun h2 => hfit ⟨le_of_lt hc, h2⟩
        push_neg at h1
        nlinarith
      have hr_th : round_aspect2 w h tw ≤ th :=
        round_aspect2_le w h tw th hw (by nlinarith)
      have hr_h : round_aspect2 w h tw ≤ h :=
        round_aspect2_le w h tw h hw (by nlinarith)
      refine ⟨?_, ?_, ?_, ?_, ?_⟩ <;> simp [thumbnailSize, hfit, Nat.not_le.mpr hbr]
      · exact ⟨hr_th, hth⟩
      · exact htw_le_w
      · exact ⟨hr_h, hh⟩
      · intro h1 h2
        exact absurd ⟨h1, h2⟩ hfit

/-! ## Facts about the per-source generation loop -/

/-- A property holds of all encodings once it holds of the two of them. -/
lemma encoding_forall (p : Encoding → Prop) :
    (∀ e, p e) ↔ p Encoding.webp ∧ p Encoding.jpeg :=
  ⟨fun h => ⟨h _, h _⟩, fun h e => by cases e <;> tauto⟩

/-- Unfolding one iteration of the generation loop. -/
lemma optimize_loop_cons (o : Optimizer) (env : Env) (stem : String) (img : Img)
    (sn : String) (c : SizeConfig) (rest : List (String × SizeConfig))
    (p : List String) (w : List WriteEvent) :
    optimize_loop o env stem img ((sn, c) :: rest) p w =
      if env.save_fails stem sn Encoding.webp then ⟨false, p, w⟩
      else if env.save_fails stem sn Encoding.jpeg then
        ⟨false, p,
          w ++ [save_event o stem (thumbnailImg img c.maxW c.maxH) sn c.quality Encoding.webp]⟩
      else
        optimize_loop o env stem img rest
          (p ++ [artifact_path o sn stem Encoding.webp, artifact_path o sn stem Encoding.jpeg])
          (w ++ [save_event o stem (thumbnailImg img c.maxW c.maxH) sn c.quality Encoding.webp,
                 save_event o stem (thumbnailImg img c.maxW c.maxH) sn c.quality Encoding.jpeg]) :=
  rfl

/-- The write log of the generation loop only grows: the result extends the
log the loop starts from. -/
lemma optimize_loop_writes_extend (o : Optimizer) (env : Env) (stem : String) (img : Img) :
    ∀ (l : List (String × SizeConfig)) (p : List String) (w : List WriteEvent),
      ∃ added, (optimize_loop o env stem img l p w).writes = w ++ added
  | [], _, w => ⟨[], by simp [optimize_loop]⟩
  | (sn, c) :: rest, p, w => by
    rw [optimize_loop_cons]
    by_cases h1 : env.save_fails stem sn Encoding.webp = true
    · rw [if_pos h1]
      exact ⟨[], by simp⟩
    · rw [if_neg h1]
      by_cases h2 : env.save_fails stem sn Encoding.jpeg = true
      · rw [if_pos h2]
        exact ⟨[save_event o stem (thumbnailImg img c.maxW c.maxH) sn c.quality Encoding.webp], rfl⟩
      · rw [if_neg h2]
        obtain ⟨added, hadded⟩ :=
          optimize_loop_writes_extend o env stem img rest
            (p ++ [artifact_path o sn stem Encoding.webp, artifact_path o sn stem Encoding.jpeg])
            (w ++ [save_event o stem (thumbnailImg img c.maxW c.maxH) sn c.quality Encoding.webp,
                   save_event o stem (thumbnailImg img c.maxW c.maxH) sn c.quality Encoding.jpeg])
        refine ⟨[save_event o stem (thumbnailImg img c.maxW c.maxH) sn c.quality Encoding.webp,
                 save_event o stem (thumbnailImg img c.maxW c.maxH) sn c.quality Encoding.jpeg] ++ added, ?_⟩
        rw [hadded, List.append_assoc]

/-- The accumulator of the generation loop only grows, and every path it adds
is the path of a file the loop wrote. -/
lemma optimize_loop_processed_extend (o : Optimizer) (env : Env) (stem : String) (img : Img) :
    ∀ (l : List (String × SizeConfig)) (p : List String) (w : List WriteEvent),
      ∃ added, (optimize_loop o env stem img l p w).processed_files = p ++ added ∧
        ∀ q ∈ added, q ∈ (optimize_loop o env stem img l p w).writes.map WriteEvent.path
  | [], _, w => ⟨[], by simp [optimize_loop]⟩
  | (sn, c) :: rest, p, w => by
    rw [optimize_loop_cons]
    by_cases h1 : env.save_fails stem sn Encoding.webp = true
    · rw [if_pos h1]
      exact ⟨[], by simp⟩
    · rw [if_neg h1]
      by_cases h2 : env.save_fails stem sn Encoding.jpeg = true
      · rw [if_pos h2]
        exact ⟨[], by simp⟩
      · rw [if_neg h2]
        obtain ⟨added, hadded, hmem⟩ :=
          optimize_loop_processed_extend o env stem img rest
            (p ++ [artifact_path o sn stem Encoding.webp, artifact_path o sn stem Encoding.jpeg])
            (w ++ [save_event o stem (thumbnailImg img c.maxW c.maxH) sn c.quality Encoding.webp,
                   save_event o stem (thumbnailImg img c.maxW c.maxH) sn c.quality Encoding.jpeg])
        obtain ⟨added2, hadded2⟩ :=
          optimize_loop_writes_extend o env stem img rest
            (p ++ [artifact_path o sn stem Encoding.webp, artifact_path o sn stem Encoding.jpeg])
            (w ++ [save_event o stem (thumbnailImg img c.maxW c.maxH) sn c.quality Encoding.webp,
                   save_event o stem (thumbnailImg img c.maxW c.maxH) sn c.quality Encoding.jpeg])
        refine ⟨[artifact_path o sn stem Encoding.webp,
                 artifact_path o sn stem Encoding.jpeg] ++ added,
                by rw [hadded, List.append_assoc], ?_⟩
        intro q hq
        rcases List.mem_append.mp hq with hq | hq
        · rw [hadded2]
          simp only [List.map_append, List.mem_append]
          left
          simp only [List.mem_cons, List.mem_singleton] at hq
          rcases hq with rfl | rfl | hq
          · simp [save_event]
          · simp [save_event]
          · cases hq
        · exact hmem q hq

/-- The generation loop succeeds exactly when no save of a profile of its
list fails. -/
lemma optimize_loop_ok_iff (o : Optimizer) (env : Env) (stem : String) (img : Img) :
    ∀ (l : List (String × SizeConfig)) (p : List String) (w : List WriteEvent),
      (optimize_loop o env stem img l p w).ok = true ↔
        ∀ pc ∈ l, ∀ e : Encoding, env.save_fails stem pc.1 e = false
  | [], p, w => by simp [optimize_loop]
  | (sn, c) :: rest, p, w => by
    rw [optimize_loop_cons]
    by_cases h1 : env.save_fails stem sn Encoding.webp = true
    · rw [if_pos h1]
      constructor
      · intro h
        cases h
      · intro h
        have := h (sn, c) (List.mem_cons_self _ _) Encoding.webp
        rw [h1] at this
        cases this
    · rw [if_neg h1]
      by_cases h2 : env.save_fails stem sn Encoding.jpeg = true
      · rw [if_pos h2]
        constructor
        · intro h
          cases h
        · intro h
          have := h (sn, c) (List.mem_cons_self _ _) Encoding.jpeg
          rw [h2] at this
          cases this
      · rw [if_neg h2]
        rw [optimize_loop_ok_iff o env stem img rest
          (p ++ [artifact_path o sn stem Encoding.webp, artifact_path o sn stem Encoding.jpeg])
          (w ++ [save_event o stem (thumbnailImg img c.maxW c.maxH) sn c.quality Encoding.webp,
                 save_event o stem (thumbnailImg img c.maxW c.maxH) sn c.quality Encoding.jpeg])]
        constructor
        · intro h pc hpc e
          rcases List.mem_cons.mp hpc with heq | hpc
          · subst heq
            cases e
            · simpa using h1
            · simpa using h2
          · exact h pc hpc e
        · intro h pc hpc e
          exact h pc (List.mem_cons_of_mem _ hpc) e

/-- Swapping the optimizer, the image or the accumulators never changes
whether the generation loop succeeds: success depends only on the oracle. -/
lemma optimize_loop_ok_independent (env : Env) (stem : String) :
    ∀ (l : List (String × SizeConfig)) (o o' : Optimizer) (img img' : Img)
      (p p' : List String) (w w' : List WriteEvent),
      (optimize_loop o env stem img l p w).ok = (optimize_loop o' env stem img' l p' w').ok
  | [], _, _, _, _, _, _, _, _ => rfl
  | (sn, c) :: rest, o, o', img, img', p, p', w, w' => by
    rw [optimize_loop_cons, optimize_loop_cons]
    by_cases h1 : env.save_fails stem sn Encoding.webp = true
    · rw [if_pos h1, if_pos h1]
    · rw [if_neg h1, if_neg h1]
      by_cases h2 : env.save_fails stem sn Encoding.jpeg = true
      · rw [if_pos h2, if_pos h2]
      · rw [if_neg h2, if_neg h2]
        exact optimize_loop_ok_independent env stem rest o o' img img' _ _ _ _

/-- A failing generation loop wrote strictly fewer files than the two per
profile a full pass writes. -/
lemma optimize_loop_fail_length (o : Optimizer) (env : Env) (stem : String) (img : Img) :
    ∀ (l : List (String × SizeConfig)) (p : List String) (w : List WriteEvent),
      (optimize_loop o env stem img l p w).ok = false →
      (optimize_loop o env stem img l p w).writes.length < w.length + 2 * l.length
  | [], p, w => by simp [optimize_loop]
  | (sn, c) :: rest, p, w => by
    rw [optimize_loop_cons]
    by_cases h1 : env.save_fails stem sn Encoding.webp = true
    · rw [if_pos h1]
      intro
      simp only [List.length_cons]
      omega
    · rw [if_neg h1]
      by_cases h2 : env.save_fails stem sn Encoding.jpeg = true
      · rw [if_pos h2]
        intro
        simp only [List.length_append, List.length_cons, List.length_nil, List.length_singleton]
        omega
      · rw [if_neg h2]
        intro hfail
        have := optimize_loop_fail_length o env stem img rest
          (p ++ [artifact_path o sn stem Encoding.webp, artifact_path o sn stem Encoding.jpeg])
          (w ++ [save_event o stem (thumbnailImg img c.maxW c.maxH) sn c.quality Encoding.webp,
                 save_event o stem (thumbnailImg img c.maxW c.maxH) sn c.quality Encoding.jpeg]) hfail
        simp only [List.length_append, List.length_cons, List.length_nil] at this ⊢
        omega

/-- Against an oracle that fails nothing, the loop's write log extends the
write log of the same loop against any oracle: a failing run's files are an
initial segment of the full run's. -/
lemma optimize_loop_writes_initseg (o : Optimizer) (env env' : Env) (stem : String) (img : Img)
    (hok : ∀ sn e, env'.save_fails stem sn e = false) :
    ∀ (l : List (String × SizeConfig)) (p : List String) (w : List WriteEvent),
      ∃ rest, (optimize_loop o env' stem img l p w).writes =
        (optimize_loop o env stem img l p w).writes ++ rest
  | [], p, w => ⟨[], by simp [optimize_loop]⟩
  | (sn, c) :: rest, p, w => by
    rw [optimize_loop_cons o env' stem img sn c rest p w,
      optimize_loop_cons o env stem img sn c rest p w]
    rw [if_neg (by simp [hok]), if_neg (by simp [hok])]
    by_cases h1 : env.save_fails stem sn Encoding.webp = true
    · rw [if_pos h1]
      obtain ⟨added, hadded⟩ :=
        optimize_loop_writes_extend o env' stem img rest
          (p ++ [artifact_path o sn stem Encoding.webp, artifact_path o sn stem Encoding.jpeg])
          (w ++ [save_event o stem (thumbnailImg img c.maxW c.maxH) sn c.quality Encoding.webp,
                 save_event o stem (thumbnailImg img c.maxW c.maxH) sn c.quality Encoding.jpeg])
      refine ⟨[save_event o stem (thumbnailImg img c.maxW c.maxH) sn c.quality Encoding.webp,
               save_event o stem (thumbnailImg img c.maxW c.maxH) sn c.quality Encoding.jpeg] ++ added, ?_⟩
      rw [hadded, List.append_assoc]
    · rw [if_neg h1]
      by_cases h2 : env.save_fails stem sn Encoding.jpeg = true
      · rw [if_pos h2]
        obtain ⟨added, hadded⟩ :=
          optimize_loop_writes_extend o env' stem img rest
            (p ++ [artifact_path o sn stem Encoding.webp, artifact_path o sn stem Encoding.jpeg])
            (w ++ [save_event o stem (thumbnailImg img c.maxW c.maxH) sn c.quality Encoding.webp,
                   save_event o stem (thumbnailImg img c.maxW c.maxH) sn c.quality Encoding.jpeg])
        refine ⟨[save_event o stem (thumbnailImg img c.maxW c.maxH) sn c.quality Encoding.jpeg] ++ added, ?_⟩
        rw [hadded]
        simp
      · rw [if_neg h2]
        exact optimize_loop_writes_initseg o env env' stem img hok rest _ _

/-- Every file the generation loop writes is the resize of its image for one
of the loop's profiles. -/
lemma optimize_loop_writes_shape (o : Optimizer) (env : Env) (stem : String) (img : Img) :
    ∀ (l : List (String × SizeConfig)) (p : List String) (w : List WriteEvent),
      ∀ we ∈ (optimize_loop o env stem img l p w).writes,
        we ∈ w ∨ ∃ pc ∈ l, we.img = thumbnailImg img pc.2.maxW pc.2.maxH
  | [], p, w => by
    intro we hwe
    exact Or.inl hwe
  | (sn, c) :: rest, p, w => by
    intro we hwe
    rw [optimize_loop_cons] at hwe
    by_cases h1 : env.save_fails stem sn Encoding.webp = true
    · rw [if_pos h1] at hwe
      exact Or.inl hwe
    · rw [if_neg h1] at hwe
      by_cases h2 : env.save_fails stem sn Encoding.jpeg = true
      · rw [if_pos h2] at hwe
        rcases List.mem_append.mp hwe with hwe | hwe
        · exact Or.inl hwe
        · refine Or.inr ⟨(sn, c), List.mem_cons_self _ _, ?_⟩
          simp only [List.mem_singleton] at hwe
          rw [hwe]
          rfl
      · rw [if_neg h2] at hwe
        rcases optimize_loop_writes_shape o env stem img rest _ _ we hwe with hwe' | ⟨pc, hpc, heq⟩
        · rcases List.mem_append.mp hwe' with h | h
          · exact Or.inl h
          · refine Or.inr ⟨(sn, c), List.mem_cons_self _ _, ?_⟩
            simp only [List.mem_cons, List.mem_singleton] at h
            rcases h with rfl | rfl | h
            · rfl
            · rfl
            · cases h
        · exact Or.inr ⟨pc, List.mem_cons_of_mem _ hpc, heq⟩

/-! ## Facts about the batch loop -/

/-- Whether `optimize_image` succeeds does not depend on the optimizer
state it is called with. -/
lemma optimize_image_ok_independent (env : Env) (src : SourceImage) (o o' : Optimizer) :
    (optimize_image o env src).ok = (optimize_image o' env src).ok := by
  unfold optimize_image
  cases src.decoded with
  | none => rfl
  | some img =>
    exact optimize_loop_ok_independent env src.stem sizes_config o o' _ _ _ _ _ _

/-- Counting with `countP` only looks at the predicate's values on the list. -/
lemma countP_ext {α : Type} (l : List α) (p q : α → Bool) (h : ∀ a ∈ l, p a = q a) :
    l.countP p = l.countP q := by
  induction l with
  | nil => rfl
  | cons a l ih =>
    rw [List.countP_cons, List.countP_cons, h a (List.mem_cons_self _ _),
      ih fun b hb => h b (List.mem_cons_of_mem _ hb)]

/-- The batch loop's success counter counts exactly the sources whose
individual `optimize_image` call succeeds. -/
lemma process_loop_count (env : Env) :
    ∀ (l : List SourceImage) (o : Optimizer) (n : Nat) (ws : List WriteEvent),
      (process_loop env l o n ws).1 =
        n + l.countP (fun s => (optimize_image o env s).ok)
  | [], o, n, ws => by simp [process_loop]
  | src :: rest, o, n, ws => by
    rw [process_loop, process_loop_count env rest, List.countP_cons]
    have hext : rest.countP
        (fun s => (optimize_image { o with processed_files := (optimize_image o env src).processed_files } env s).ok) =
        rest.countP (fun s => (optimize_image o env s).ok) :=
      countP_ext rest _ _ fun s _ => optimize_image_ok_independent env s _ _
    rw [hext]
    by_cases h : (optimize_image o env src).ok = true
    · rw [h]
      simp
      omega
    · rw [Bool.not_eq_true] at h
      rw [h]
      simp

/-! ## Concrete instances used by witnesses and counterexamples -/

/-- A codec/filesystem oracle under which no save fails. -/
def no_failure_env : Env := ⟨fun _ _ _ => false⟩

/-- An oracle under which only the JPEG save of the `thumb` profile fails. -/
def thumb_jpeg_fails_env : Env :=
  ⟨fun _ sn e => sn == "thumb" && e == Encoding.jpeg⟩

/-- An oracle under which only the WebP save of the `medium` profile fails. -/
def medium_webp_fails_env : Env :=
  ⟨fun _ sn e => sn == "medium" && e == Encoding.webp⟩

/-- A git oracle under which every git subprocess call succeeds. -/
def git_all_ok : GitEnv := ⟨false, false, false, true⟩

/-- A fresh optimizer on the repository root "repo". -/
def repo_optimizer : Optimizer := ⟨"repo", []⟩

/-- A 1000 × 800 opaque RGB source image. -/
def rgb_img : Img := ⟨Mode.RGB, 1000, 800⟩

/-- A decodable source named "ring1". -/
def ring_src : SourceImage := ⟨"ring1", some rgb_img⟩

/-! ## Claim theorems -/

/-- C1: for every source image for which generation succeeds, `optimize_image`
produces exactly `|catalog| × |encodings|` artifacts (with the current catalog
of 3 profiles and 2 encodings, 6 files), each written at the deterministic
path `<outputRoot>/<profileName>/<sourceStem>.webp` or `.jpg` determined by
the (stem, profile, encoding) triple, and records exactly those paths in the
accumulator. -/
theorem generate_success_artifacts (o : Optimizer) (env : Env) (src : SourceImage)
    (img : Img) (hdec : src.decoded = some img)
    (hok : ∀ sn e, env.save_fails src.stem sn e = false) :
    (optimize_image o env src).ok = true ∧
    (optimize_image o env src).writes.map WriteEvent.path =
      [artifact_path o "thumb" src.stem Encoding.webp,
       artifact_path o "thumb" src.stem Encoding.jpeg,
       artifact_path o "medium" src.stem Encoding.webp,
       artifact_path o "medium" src.stem Encoding.jpeg,
       artifact_path o "large" src.stem Encoding.webp,
       artifact_path o "large" src.stem Encoding.jpeg] ∧
    (optimize_image o env src).writes.length = sizes_config.length * 2 ∧
    (optimize_image o env src).processed_files =
      o.processed_files ++ (optimize_image o env src).writes.map WriteEvent.path := by
  simp [optimize_image, hdec, sizes_config, optimize_loop, hok, save_event]

/-- Witness for C1 at a concrete source: a fresh optimizer, a decodable
1000 × 800 RGB image and an oracle that fails nothing. -/
theorem generate_success_artifacts_instance :
    (optimize_image repo_optimizer no_failure_env ring_src).ok = true ∧
    (optimize_image repo_optimizer no_failure_env ring_src).writes.map WriteEvent.path =
      [artifact_path repo_optimizer "thumb" ring_src.stem Encoding.webp,
       artifact_path repo_optimizer "thumb" ring_src.stem Encoding.jpeg,
       artifact_path repo_optimizer "medium" ring_src.stem Encoding.webp,
       artifact_path repo_optimizer "medium" ring_src.stem Encoding.jpeg,
       artifact_path repo_optimizer "large" ring_src.stem Encoding.webp,
       artifact_path repo_optimizer "large" ring_src.stem Encoding.jpeg] ∧
    (optimize_image repo_optimizer no_failure_env ring_src).writes.length =
      sizes_config.length * 2 ∧
    (optimize_image repo_optimizer no_failure_env ring_src).processed_files =
      repo_optimizer.processed_files ++
        (optimize_image repo_optimizer no_failure_env ring_src).writes.map WriteEvent.path :=
  generate_success_artifacts repo_optimizer no_failure_env ring_src rgb_img rfl
    (fun _ _ => rfl)

/-- C2: `optimize_image` reports success exactly when the decode and every
encode+write for the source complete without error; a failure aborts the
remaining artifacts of that source (strictly fewer than the full
`2 × |catalog|` files get written), and the artifacts already written stay in
place — the failing run's files are an initial segment of the files the fully
successful run writes (no rollback). -/
theorem generate_ok_iff_every_save_ok (o : Optimizer) (env : Env) (src : SourceImage) :
    ((optimize_image o env src).ok = true ↔
      (∃ img, src.decoded = some img) ∧
        ∀ pc ∈ sizes_config, ∀ e : Encoding, env.save_fails src.stem pc.1 e = false) ∧
    ((optimize_image o env src).ok = false →
      (optimize_image o env src).writes.length < sizes_config.length * 2) ∧
    (∃ rest, (optimize_image o no_failure_env src).writes =
      (optimize_image o env src).writes ++ rest) := by
  refine ⟨?_, ?_, ?_⟩
  · unfold optimize_image
    cases hdec : src.decoded with
    | none => simp
    | some img =>
      rw [optimize_loop_ok_iff]
      simp
  · unfold optimize_image
    cases hdec : src.decoded with
    | none =>
      intro
      simp [sizes_config]
    | some img =>
      intro hfail
      have := optimize_loop_fail_length o env src.stem (convert_branch img)
        sizes_config o.processed_files [] hfail
      simpa [Nat.mul_comm] using this
  · unfold optimize_image
    cases hdec : src.decoded with
    | none => exact ⟨[], rfl⟩
    | some img =>
      exact optimize_loop_writes_initseg o env no_failure_env src.stem (convert_branch img)
        (fun _ _ => rfl) sizes_config o.processed_files []

/-- C3: the failure of any single source never aborts the batch — the batch's
success counter decomposes source by source, so a failing source contributes
exactly 1 to the failed count and the outcome of every other source is
unaffected. -/
theorem batch_fault_isolation (env : Env) (o : Optimizer) (l1 l2 : List SourceImage)
    (s : SourceImage) :
    (process_all_images o env (l1 ++ s :: l2)).success_count =
      l1.countP (fun t => (optimize_image o env t).ok) +
      (if (optimize_image o env s).ok then 1 else 0) +
      l2.countP (fun t => (optimize_image o env t).ok) ∧
    (l1 ++ s :: l2).length - (process_all_images o env (l1 ++ s :: l2)).success_count =
      (l1.length - l1.countP (fun t => (optimize_image o env t).ok)) +
      (if (optimize_image o env s).ok then 0 else 1) +
      (l2.length - l2.countP (fun t => (optimize_image o env t).ok)) := by
  have hne : l1 ++ s :: l2 ≠ [] := by simp
  have hcount : (process_all_images o env (l1 ++ s :: l2)).success_count =
      l1.countP (fun t => (optimize_image o env t).ok) +
      (if (optimize_image o env s).ok then 1 else 0) +
      l2.countP (fun t => (optimize_image o env t).ok) := by
    unfold process_all_images
    rw [if_neg hne]
    show (process_loop env (l1 ++ s :: l2) o 0 []).1 = _
    rw [process_loop_count env (l1 ++ s :: l2) o 0 []]
    rw [List.countP_append, List.countP_cons]
    by_cases h : (optimize_image o env s).ok = true
    · rw [h]
      simp
      omega
    · rw [Bool.not_eq_true] at h
      rw [h]
      simp
  refine ⟨hcount, ?_⟩
  rw [hcount]
  have hle1 := List.countP_le_length (l := l1) (p := fun t => (optimize_image o env t).ok)
  have hle2 := List.countP_le_length (l := l2) (p := fun t => (optimize_image o env t).ok)
  simp only [List.length_append, List.length_cons]
  by_cases h : (optimize_image o env s).ok = true
  · rw [h]
    simp
    omega
  · rw [Bool.not_eq_true] at h
    rw [h]
    simp
    omega

/-- C4: the publish step is invoked exactly when the batch counted at least
one successfully generated source; an empty discovery or a batch with zero
successes skips publishing. -/
theorem publish_gating (o : Optimizer) (cwd0 : String) (env : Env) (genv : GitEnv)
    (sources : List SourceImage) :
    ((run_full_optimization o cwd0 env genv sources).publish_invoked = true ↔
      0 < (process_all_images o env sources).success_count) ∧
    (sources = [] →
      (run_full_optimization o cwd0 env genv sources).publish_invoked = false) := by
  have hok : (process_all_images o env sources).ok =
      decide (0 < (process_all_images o env sources).success_count) := by
    unfold process_all_images
    by_cases h : sources = []
    · rw [if_pos h]
      rfl
    · rw [if_neg h]
  constructor
  · unfold run_full_optimization
    by_cases h : (process_all_images o env sources).ok = true
    · rw [if_pos h]
      rw [hok] at h
      simpa using h
    · rw [if_neg h]
      rw [hok] at h
      simp at h ⊢
      omega
  · intro hempty
    unfold run_full_optimization
    rw [if_neg]
    rw [hok, hempty]
    simp [process_all_images]

/-- C10: every invocation of `git_commit_and_push` leaves the process-global
working directory at the repository path — whatever it was before and whether
or not publishing fails — and changes nothing in the optimizer state. -/
theorem publish_chdir_frame (o : Optimizer) (cwd0 : String) (genv : GitEnv) :
    (git_commit_and_push o cwd0 genv).cwd = o.repo_path ∧
    (git_commit_and_push o cwd0 genv).optimizer = o := by
  unfold git_commit_and_push
  split_ifs <;> exact ⟨rfl, rfl⟩

/-- A second 1000 × 800 source image carrying an alpha channel. -/
def rgba_img : Img := ⟨Mode.RGBA, 1000, 800⟩

/-- A decodable RGBA source named "ring2". -/
def rgba_src : SourceImage := ⟨"ring2", some rgba_img⟩

/-- An optimizer whose accumulator holds one artifact path. -/
def staged_one_optimizer : Optimizer :=
  ⟨"repo", ["repo/optimizadas/Anillos/thumb/ring1.webp"]⟩

/-- C5 (evaluating the code at the failing input): on a run that finds zero
source images, `main` still ends the process with exit status 0 — no branch of
the script ever sets a non-zero exit code. -/
theorem exit_code_zero_on_empty_discovery :
    (process_all_images ⟨"C:/Users/Lenovo/Pictures/imglizza", []⟩ no_failure_env
      []).success_count = 0 ∧
    main true true "C:/Users/Lenovo/Pictures/imglizza" "cwd" no_failure_env git_all_ok [] = 0 :=
  ⟨rfl, rfl⟩

/-- Modelled from the spec: the delegation claim C6 asserts of the publisher —
that it receives exactly the manifest's changed artifact paths plus the fixed
configuration (exclusion-rules) file. -/
def claimed_staged_paths (o : Optimizer) : List String :=
  o.processed_files ++ [".gitignore"]

/-- Counterexample to C6: with one changed artifact path in the manifest, the
paths handed to `git add` are the fixed directory `optimizadas/` and
`.gitignore`, not that artifact path plus the configuration file. -/
theorem publish_delegation_cex :
    add_args (git_commit_and_push staged_one_optimizer "cwd" git_all_ok).commands ≠
      claimed_staged_paths staged_one_optimizer := by
  decide

/-- C6 as amended: the publish step builds a summary message embedding the
count of produced artifacts, and delegates to the version-control publisher
the fixed output directory `optimizadas/` plus the fixed configuration file
`.gitignore`; the manifest's individual paths enter only the count in the
message. -/
theorem publish_delegation (o : Optimizer) (cwd0 : String) (genv : GitEnv)
    (h1 : genv.add_optimizadas_fails = false) (h2 : genv.add_gitignore_fails = false)
    (h3 : genv.commit_fails = false) :
    add_args (git_commit_and_push o cwd0 genv).commands = ["optimizadas/", ".gitignore"] ∧
    ["git", "commit", "-m", commit_message o] ∈ (git_commit_and_push o cwd0 genv).commands ∧
    commit_message o =
      "Optimizar imágenes - " ++ toString o.processed_files.length ++ " archivos procesados" := by
  unfold git_commit_and_push
  rw [if_neg (by simp [h1]), if_neg (by simp [h2]), if_neg (by simp [h3])]
  refine ⟨rfl, ?_, rfl⟩
  exact List.mem_cons_of_mem _ (List.mem_cons_of_mem _ (List.mem_cons_self _ _))

/-- Witness for C6's amended theorem at a concrete optimizer holding one
processed path, against a git oracle where every subprocess call succeeds. -/
theorem publish_delegation_instance :
    add_args (git_commit_and_push staged_one_optimizer "cwd" git_all_ok).commands =
      ["optimizadas/", ".gitignore"] ∧
    ["git", "commit", "-m", commit_message staged_one_optimizer] ∈
      (git_commit_and_push staged_one_optimizer "cwd" git_all_ok).commands ∧
    commit_message staged_one_optimizer =
      "Optimizar imágenes - " ++ toString staged_one_optimizer.processed_files.length ++
        " archivos procesados" :=
  publish_delegation staged_one_optimizer "cwd" git_all_ok rfl rfl rfl

/-- C7: a decoded source whose pixel format carries transparency or a palette
(RGBA, LA or P) is normalized to opaque three-channel RGB — keeping its
dimensions — before any resize: every file the generation writes is a resize
of the normalized image; a source already in RGB is not converted. -/
theorem transparency_flattened_before_resize (o : Optimizer) (env : Env) (src : SourceImage)
    (img : Img) (hdec : src.decoded = some img) :
    ((img.mode = Mode.RGBA ∨ img.mode = Mode.LA ∨ img.mode = Mode.P) →
      (convert_branch img).mode = Mode.RGB ∧
      (convert_branch img).width = img.width ∧ (convert_branch img).height = img.height) ∧
    (img.mode = Mode.RGB → convert_branch img = img) ∧
    (∀ we ∈ (optimize_image o env src).writes, ∃ pc ∈ sizes_config,
      we.img = thumbnailImg (convert_branch img) pc.2.maxW pc.2.maxH) := by
  refine ⟨?_, ?_, ?_⟩
  · intro hm
    rw [convert_branch, if_pos hm]
    exact ⟨rfl, rfl, rfl⟩
  · intro hm
    rw [convert_branch, if_neg (by rw [hm]; simp)]
  · intro we hwe
    simp only [optimize_image, hdec] at hwe
    rcases optimize_loop_writes_shape o env src.stem (convert_branch img) sizes_config
      o.processed_files [] we hwe with h | h
    · cases h
    · exact h

/-- Witness for C7 at a concrete RGBA source against an oracle that fails
nothing. -/
theorem transparency_flattened_before_resize_instance :
    ((rgba_img.mode = Mode.RGBA ∨ rgba_img.mode = Mode.LA ∨ rgba_img.mode = Mode.P) →
      (convert_branch rgba_img).mode = Mode.RGB ∧
      (convert_branch rgba_img).width = rgba_img.width ∧
      (convert_branch rgba_img).height = rgba_img.height) ∧
    (rgba_img.mode = Mode.RGB → convert_branch rgba_img = rgba_img) ∧
    (∀ we ∈ (optimize_image repo_optimizer no_failure_env rgba_src).writes,
      ∃ pc ∈ sizes_config,
        we.img = thumbnailImg (convert_branch rgba_img) pc.2.maxW pc.2.maxH) :=
  transparency_flattened_before_resize repo_optimizer no_failure_env rgba_src rgba_img rfl

/-- C8: for every profile of the catalog, the resize is shrink-only and
aspect-preserving — neither produced dimension exceeds the profile's bounding
box or the source's dimensions, and a source already fitting inside the
bounding box keeps exactly its dimensions (never upscaled). -/
theorem profile_resize_shrink_only (pc : String × SizeConfig) (hpc : pc ∈ sizes_config)
    (img : Img) (hw : 1 ≤ img.width) (hh : 1 ≤ img.height) :
    (thumbnailImg img pc.2.maxW pc.2.maxH).width ≤ pc.2.maxW ∧
    (thumbnailImg img pc.2.maxW pc.2.maxH).height ≤ pc.2.maxH ∧
    (thumbnailImg img pc.2.maxW pc.2.maxH).width ≤ img.width ∧
    (thumbnailImg img pc.2.maxW pc.2.maxH).height ≤ img.height ∧
    (img.width ≤ pc.2.maxW → img.height ≤ pc.2.maxH →
      (thumbnailImg img pc.2.maxW pc.2.maxH).width = img.width ∧
      (thumbnailImg img pc.2.maxW pc.2.maxH).height = img.height) := by
  have hbox : 1 ≤ pc.2.maxW ∧ 1 ≤ pc.2.maxH := by
    simp only [sizes_config, List.mem_cons, List.not_mem_nil, or_false] at hpc
    rcases hpc with rfl | rfl | rfl <;> exact ⟨by norm_num, by norm_num⟩
  obtain ⟨h1, h2, h3, h4, h5⟩ :=
    thumbnail_size_bounds img.width img.height pc.2.maxW pc.2.maxH hw hh hbox.1 hbox.2
  refine ⟨?_, ?_, ?_, ?_, ?_⟩
  · simpa [thumbnailImg] using h1
  · simpa [thumbnailImg] using h2
  · simpa [thumbnailImg] using h3
  · simpa [thumbnailImg] using h4
  · intro hfw hfh
    have heq := h5 hfw hfh
    constructor <;> simp [thumbnailImg, heq]

/-- Witness for C8 at the `thumb` profile and a concrete 1000 × 800 source. -/
theorem profile_resize_shrink_only_instance :
    (thumbnailImg rgb_img 300 300).width ≤ 300 ∧
    (thumbnailImg rgb_img 300 300).height ≤ 300 ∧
    (thumbnailImg rgb_img 300 300).width ≤ rgb_img.width ∧
    (thumbnailImg rgb_img 300 300).height ≤ rgb_img.height ∧
    (rgb_img.width ≤ 300 → rgb_img.height ≤ 300 →
      (thumbnailImg rgb_img 300 300).width = rgb_img.width ∧
      (thumbnailImg rgb_img 300 300).height = rgb_img.height) :=
  profile_resize_shrink_only ("thumb", ⟨300, 300, 70⟩) (by simp [sizes_config]) rgb_img
    (by norm_num [rgb_img]) (by norm_num [rgb_img])

/-- Counterexample to C9: when the JPEG save of the first profile fails, the
WebP of that profile was written to disk before the failure, yet it is not in
the processed-files accumulator (`extend` runs only after both saves of an
iteration succeed). -/
theorem partial_artifact_unrecorded_cex :
    artifact_path repo_optimizer "thumb" "ring1" Encoding.webp ∈
      (optimize_image repo_optimizer thumb_jpeg_fails_env ring_src).writes.map
        WriteEvent.path ∧
    artifact_path repo_optimizer "thumb" "ring1" Encoding.webp ∉
      (optimize_image repo_optimizer thumb_jpeg_fails_env ring_src).processed_files := by
  decide

/-- C9 as amended: when generation fails after completing some profile
iterations (here: the `medium` WebP save fails), the artifact paths of the
completed iterations remain in the processed-files accumulator, so the count
embedded in the publish commit message includes partial artifacts from failed
sources. -/
theorem partial_artifacts_in_commit_count (o : Optimizer) (env : Env) (src : SourceImage)
    (img : Img) (hdec : src.decoded = some img)
    (h1 : env.save_fails src.stem "thumb" Encoding.webp = false)
    (h2 : env.save_fails src.stem "thumb" Encoding.jpeg = false)
    (h3 : env.save_fails src.stem "medium" Encoding.webp = true) :
    (optimize_image o env src).ok = false ∧
    (optimize_image o env src).processed_files =
      o.processed_files ++ [artifact_path o "thumb" src.stem Encoding.webp,
                            artifact_path o "thumb" src.stem Encoding.jpeg] ∧
    commit_message { o with processed_files := (optimize_image o env src).processed_files } =
      "Optimizar imágenes - " ++ toString (o.processed_files.length + 2) ++
        " archivos procesados" := by
  simp [optimize_image, hdec, sizes_config, optimize_loop, h1, h2, h3, commit_message]

/-- Witness for C9's amended theorem: a concrete run where only the `medium`
WebP save fails. -/
theorem partial_artifacts_in_commit_count_instance :
    (optimize_image repo_optimizer medium_webp_fails_env ring_src).ok = false ∧
    (optimize_image repo_optimizer medium_webp_fails_env ring_src).processed_files =
      repo_optimizer.processed_files ++
        [artifact_path repo_optimizer "thumb" ring_src.stem Encoding.webp,
         artifact_path repo_optimizer "thumb" ring_src.stem Encoding.jpeg] ∧
    commit_message { repo_optimizer with
        processed_files :=
          (optimize_image repo_optimizer medium_webp_fails_env ring_src).processed_files } =
      "Optimizar imágenes - " ++ toString (repo_optimizer.processed_files.length + 2) ++
        " archivos procesados" :=
  partial_artifacts_in_commit_count repo_optimizer medium_webp_fails_env ring_src rgb_img
    rfl rfl rfl rfl

end ImgLizza
